import Mathlib

/-!
Verification of the LogiRoute route graph engine
(`logistics/services/graph_engine.py`, class `RouteCalculator`) against its
specification.  The Python code is embedded shallowly: database records become
plain structures, the networkx `DiGraph` becomes insertion-ordered association
lists, Python floats/Decimals become rationals, and exceptions become `Option`
or explicit error constructors.
-/

/-- A location record (`logistics.models.LocationNode`): identity, display
name, category, coordinates, address and active flag. -/
structure LocationNode where
  id : Nat
  name : String
  node_type : String
  latitude : ℚ
  longitude : ℚ
  address : String
  is_active : Bool
deriving DecidableEq

/-- A route record (`logistics.models.RouteEdge`): directed source/destination
pair, distance, nominal travel time (an integer field), status string and
cost per km. -/
structure RouteEdge where
  id : Nat
  source_id : Nat
  destination_id : Nat
  distance_km : ℚ
  travel_time_minutes : ℤ
  status : String
  cost_per_km : ℚ
deriving DecidableEq

/-- Vertex metadata attached by `G.add_node(node.id, name=..., ...)`. -/
structure NodeMeta where
  name : String
  node_type : String
  latitude : ℚ
  longitude : ℚ
  address : String
deriving DecidableEq

/-- Arc attributes attached by `G.add_edge(source, dest, weight=..., ...)`. -/
structure ArcData where
  weight : ℚ
  distance : ℚ
  cost : ℚ
  status : String
  edge_id : Nat
deriving DecidableEq

/-- The networkx `DiGraph` as built by `RouteCalculator.build_graph`:
insertion-ordered vertices (a vertex added implicitly by `add_edge` carries no
metadata, hence the `Option`) and insertion-ordered arcs keyed by the ordered
endpoint pair. -/
structure Graph where
  vertices : List (Nat × Option NodeMeta)
  arcs : List ((Nat × Nat) × ArcData)
deriving DecidableEq

/-- First value bound to a key in an association list (Python dict lookup). -/
def findVal {κ α : Type} [DecidableEq κ] : List (κ × α) → κ → Option α
  | [], _ => none
  | (k, v) :: rest, x => if k = x then some v else findVal rest x

/-- Bind a key in an association list: replace the first occurrence, or append
(Python dict assignment / networkx attribute overwrite). -/
def setVal {κ α : Type} [DecidableEq κ] : List (κ × α) → κ → α → List (κ × α)
  | [], k, v => [(k, v)]
  | (k', v') :: rest, k, v =>
    if k' = k then (k, v) :: rest else (k', v') :: setVal rest k v

/-- The vertex ids of a graph, in insertion order (`node in G` tests this). -/
def Graph.vertexIds (g : Graph) : List Nat := g.vertices.map (fun p => p.1)

/-- Models `G.add_node` with attributes: inserts the vertex or overwrites its
metadata. -/
def addNodeMeta (g : Graph) (v : Nat) (m : NodeMeta) : Graph :=
  { g with vertices := setVal g.vertices v (some m) }

/-- The endpoint auto-insertion performed by `G.add_edge`: a missing endpoint
becomes a vertex without metadata; an existing vertex is untouched. -/
def ensureVertex (g : Graph) (v : Nat) : Graph :=
  if v ∈ g.vertexIds then g else { g with vertices := g.vertices ++ [(v, none)] }

/-- Models `G.add_edge` with attributes: auto-inserts the endpoints, then
binds the arc data at the ordered pair `(u, v)` (overwriting any previous arc
there). -/
def addEdge (g : Graph) (u v : Nat) (a : ArcData) : Graph :=
  let g1 := ensureVertex g u
  let g2 := ensureVertex g1 v
  { g2 with arcs := setVal g2.arcs (u, v) a }

/-- Arc-attribute lookup `G[u][v]`. -/
def arcLookup (g : Graph) (u v : Nat) : Option ArcData := findVal g.arcs (u, v)

/-- An entry of `RouteCalculator.node_data`. -/
structure NodeData where
  name : String
  type : String
  coords : ℚ × ℚ
deriving DecidableEq

/-- The arc attributes `build_graph` computes for one non-closed edge:
`weight = travel_time_minutes * 1.5` when the status is `slow`, otherwise the
nominal travel time; `distance = distance_km`; `cost = cost_per_km *
distance_km`. -/
def arcDataOf (e : RouteEdge) : ArcData :=
  { weight :=
      if e.status = "slow" then (e.travel_time_minutes : ℚ) * 1.5
      else (e.travel_time_minutes : ℚ),
    distance := e.distance_km,
    cost := e.cost_per_km * e.distance_km,
    status := e.status,
    edge_id := e.id }

/-- One iteration of the edge loop of `build_graph`: a `closed` edge is
skipped entirely, any other edge adds its directed arc. -/
def addEdgeRecord (g : Graph) (e : RouteEdge) : Graph :=
  if e.status = "closed" then g
  else addEdge g e.source_id e.destination_id (arcDataOf e)

/-- Models `RouteCalculator.build_graph` on a snapshot of the database: the
active nodes are added with their metadata, then every edge record is
processed by `addEdgeRecord`. -/
def build_graph (nodes : List LocationNode) (edges : List RouteEdge) : Graph :=
  let g0 : Graph := { vertices := [], arcs := [] }
  let g1 := (nodes.filter (fun n => n.is_active)).foldl
    (fun g n => addNodeMeta g n.id
      { name := n.name, node_type := n.node_type, latitude := n.latitude,
        longitude := n.longitude, address := n.address }) g0
  edges.foldl addEdgeRecord g1

/-- The `node_data` cache `build_graph` fills: one entry per active node. -/
def node_data_of (nodes : List LocationNode) : List (Nat × NodeData) :=
  (nodes.filter (fun n => n.is_active)).map
    (fun n => (n.id, { name := n.name, type := n.node_type,
                       coords := (n.latitude, n.longitude) }))

/-- The caching wrapper around graph construction: with a cached graph and no
`force_rebuild` the cached graph is returned, otherwise a fresh build runs. -/
def build_graph_cached (cached : Option Graph) (force_rebuild : Bool)
    (nodes : List LocationNode) (edges : List RouteEdge) : Graph :=
  match cached, force_rebuild with
  | some g, false => g
  | _, _ => build_graph nodes edges

/-- Round-half-to-even to an integer, the rule of the Python builtin
`round`. -/
def roundHalfEven (q : ℚ) : ℤ :=
  let f := ⌊q⌋
  if q - f < 1 / 2 then f
  else if 1 / 2 < q - f then f + 1
  else if f % 2 = 0 then f else f + 1

/-- Models the Python builtin `round` with `ndigits` on idealized (rational)
numbers. -/
def pyRound (q : ℚ) (ndigits : ℕ) : ℚ :=
  (roundHalfEven (q * 10 ^ ndigits) : ℚ) / 10 ^ ndigits

/-- A coordinate pair as serialized in results. -/
structure Coordinates where
  latitude : ℚ
  longitude : ℚ
deriving DecidableEq

/-- A segment endpoint (`from`/`to` of a route segment). -/
structure Endpoint where
  id : Nat
  name : String
  coordinates : Coordinates
deriving DecidableEq

/-- One traversed segment of a computed route.  `from` is a Lean keyword, so
the source's `from`/`to` fields are spelled `from_`/`to_`. -/
structure Segment where
  from_ : Endpoint
  to_ : Endpoint
  distance_km : ℚ
  time_minutes : ℚ
  cost : ℚ
  status : String
deriving DecidableEq

/-- One entry of the result's `nodes` list. -/
structure RouteNode where
  id : Nat
  name : String
  type : String
  coordinates : Coordinates
deriving DecidableEq

/-- The result `summary` dictionary. -/
structure Summary where
  total_distance_km : ℚ
  total_time_minutes : ℚ
  total_cost : ℚ
  stops : ℤ
  optimized_by : String
deriving DecidableEq

/-- The `route` payload of a successful result. -/
structure Route where
  nodes : List RouteNode
  segments : List Segment
  summary : Summary
deriving DecidableEq

/-- Outcome of `calculate_shortest_path`: a success payload or one of the
error dictionaries. -/
inductive CalcResult where
  | success (route : Route)
  | error (msg : String)
deriving DecidableEq

/-- The weight attribute selection `{'time': 'weight', 'distance': 'distance',
'cost': 'cost'}.get(optimize_by, 'weight')` composed with the attribute read
`edge_data[weight_attr]`: any unrecognized metric falls back to the time
weight. -/
def weightAttr (optimize_by : String) (a : ArcData) : ℚ :=
  if optimize_by = "time" then a.weight
  else if optimize_by = "distance" then a.distance
  else if optimize_by = "cost" then a.cost
  else a.weight

/-- Successor vertices of `u`, in arc insertion order. -/
def Graph.successors (g : Graph) (u : Nat) : List Nat :=
  g.arcs.filterMap (fun p => if p.1.1 = u then some p.1.2 else none)

/-- All simple directed paths from `cur` to `target` avoiding `visited`,
bounded by `fuel` expansion steps.  A path reaching `target` stops there
(every simple path ends at its first visit of the target). -/
def simplePathsAux (g : Graph) : Nat → Nat → Nat → List Nat → List (List Nat)
  | 0, cur, target, _ => if cur = target then [[cur]] else []
  | fuel + 1, cur, target, visited =>
    if cur = target then [[cur]]
    else
      (g.successors cur).foldr
        (fun v acc =>
          (if v ∈ visited then []
           else (simplePathsAux g fuel v target (v :: visited)).map
             (fun p => cur :: p)) ++ acc)
        []

/-- Total weight of a vertex sequence under the selected per-arc weight. -/
def pathWeight (g : Graph) (w : ArcData → ℚ) : List Nat → ℚ
  | [] => 0
  | [_] => 0
  | u :: v :: rest =>
    (match arcLookup g u v with
     | some a => w a
     | none => 0) + pathWeight g w (v :: rest)

/-- First minimum of `f` over a list (deterministic tie-break). -/
def argminBy {α : Type} (f : α → ℚ) : List α → Option α
  | [] => none
  | x :: xs => some (xs.foldl (fun best y => if f y < f best then y else best) x)

/-- Models `nx.dijkstra_path(G, s, t, weight)`: a minimal-total-weight directed
path from `s` to `t` (weights are non-negative by construction, where Dijkstra
is correct), with a deterministic tie-break; `none` models the
`NetworkXNoPath` exception. -/
def dijkstra_path (g : Graph) (s t : Nat) (w : ArcData → ℚ) :
    Option (List Nat) :=
  argminBy (pathWeight g w) (simplePathsAux g g.vertices.length s t [s])

/-- Consecutive vertex pairs of a path (the `for i in range(len(path)-1)`
loop). -/
def pathPairs (p : List Nat) : List (Nat × Nat) := p.zip p.tail

/-- Option-valued map over a list; `none` as soon as one element fails
(models an uncaught `KeyError` inside a Python loop). -/
def mapOpt {α β : Type} (f : α → Option β) : List α → Option (List β)
  | [] => some []
  | x :: xs =>
    match f x, mapOpt f xs with
    | some y, some ys => some (y :: ys)
    | _, _ => none

/-- The arc data read along a path (`edge_data = self.graph[u][v]`). -/
def pathArcs (g : Graph) (p : List Nat) : Option (List ArcData) :=
  mapOpt (fun pr => arcLookup g pr.1 pr.2) (pathPairs p)

/-- A segment endpoint rendered from `node_data`; `none` models the `KeyError`
on a vertex without cached metadata. -/
def mkEndpoint (nd : List (Nat × NodeData)) (v : Nat) : Option Endpoint :=
  match findVal nd v with
  | some d =>
    some { id := v, name := d.name,
           coordinates := { latitude := d.coords.1, longitude := d.coords.2 } }
  | none => none

/-- One entry of `route_segments`, with the presentation rounding of the
source (distance and cost to 2 decimals, time to 0 decimals). -/
def mkSegment (nd : List (Nat × NodeData)) (pa : (Nat × Nat) × ArcData) :
    Option Segment :=
  match mkEndpoint nd pa.1.1, mkEndpoint nd pa.1.2 with
  | some f, some t =>
    some { from_ := f, to_ := t,
           distance_km := pyRound pa.2.distance 2,
           time_minutes := pyRound pa.2.weight 0,
           cost := pyRound pa.2.cost 2,
           status := pa.2.status }
  | _, _ => none

/-- One entry of `route_nodes`; `none` models the `KeyError` on a vertex
without cached metadata. -/
def mkRouteNode (nd : List (Nat × NodeData)) (v : Nat) : Option RouteNode :=
  match findVal nd v with
  | some d =>
    some { id := v, name := d.name, type := d.type,
           coordinates := { latitude := d.coords.1, longitude := d.coords.2 } }
  | none => none

/-- Error string for a missing source vertex. -/
def srcNotFoundMsg (s : Nat) : String :=
  "Source location (ID: " ++ toString s ++ ") not found or inactive"

/-- Error string for a missing destination vertex. -/
def dstNotFoundMsg (t : Nat) : String :=
  "Destination location (ID: " ++ toString t ++ ") not found or inactive"

/-- Error string of the `NetworkXNoPath` handler. -/
def noPathMsg : String := "No route available between these locations"

/-- Error string of the generic handler that catches a `KeyError` raised while
formatting the result. -/
def calcFailedMsg : String := "Route calculation failed: KeyError"

/-- Models `RouteCalculator.calculate_shortest_path` over an already-built
graph and `node_data` cache: endpoint validation (source first), Dijkstra
under the selected weight, then per-segment metrics, node list, and the
summary with totals summed unrounded and rounded once at output. -/
def calculate_shortest_path (g : Graph) (nd : List (Nat × NodeData))
    (source_id destination_id : Nat) (optimize_by : String) : CalcResult :=
  if source_id ∈ g.vertexIds then
    if destination_id ∈ g.vertexIds then
      match dijkstra_path g source_id destination_id (weightAttr optimize_by) with
      | some path =>
        match pathArcs g path with
        | some as =>
          match mapOpt (mkSegment nd) ((pathPairs path).zip as),
                mapOpt (mkRouteNode nd) path with
          | some segs, some rns =>
            .success
              { nodes := rns, segments := segs,
                summary :=
                  { total_distance_km :=
                      pyRound ((as.map (fun a => a.distance)).sum) 2,
                    total_time_minutes :=
                      pyRound ((as.map (fun a => a.weight)).sum) 0,
                    total_cost := pyRound ((as.map (fun a => a.cost)).sum) 2,
                    stops := (path.length : ℤ) - 2,
                    optimized_by := optimize_by } }
          | _, _ => .error calcFailedMsg
        | none => .error calcFailedMsg
      | none => .error noPathMsg
    else .error (dstNotFoundMsg destination_id)
  else .error (srcNotFoundMsg source_id)

/-- Breadth-first hop-count sweep: `dist` accumulates `(vertex, hops)` in
discovery order, `frontier` is the last discovered level. -/
def bfsAux (g : Graph) : Nat → List (Nat × Nat) → List Nat → Nat → List (Nat × Nat)
  | 0, dist, _, _ => dist
  | fuel + 1, dist, frontier, d =>
    let newNodes := frontier.foldl
      (fun acc u => (g.successors u).foldl
        (fun acc2 v =>
          if (dist.any (fun p => p.1 == v)) || (acc2.any (fun x => x == v))
          then acc2 else acc2 ++ [v])
        acc)
      []
    match newNodes with
    | [] => dist
    | _ => bfsAux g fuel (dist ++ newNodes.map (fun v => (v, d + 1))) newNodes (d + 1)

/-- Models `nx.single_source_shortest_path_length(G, s)`: the UNWEIGHTED
breadth-first shortest-path-length dict, vertex to hop count.  This networkx
function takes no weight parameter (the call site's `weight='weight'` keyword
is not part of its API); it never computes weighted distances. -/
def single_source_shortest_path_length (g : Graph) (s : Nat) : List (Nat × Nat) :=
  bfsAux g g.vertices.length [(s, 0)] [s] 0

/-- One reachable destination entry. -/
structure Destination where
  id : Nat
  name : String
  type : String
  estimated_time_minutes : ℚ
deriving DecidableEq

/-- The success payload of `get_all_routes_from_location`. -/
structure ReachResult where
  source_id : Nat
  source_name : String
  reachable_destinations : List Destination
  count : Nat
deriving DecidableEq

/-- Outcome of `get_all_routes_from_location`. -/
inductive ReachOutcome where
  | success (r : ReachResult)
  | error (msg : String)
deriving DecidableEq

/-- Models `RouteCalculator.get_all_routes_from_location` over a built graph:
the sweep it runs is the unweighted BFS `single_source_shortest_path_length`,
and
each entry's `estimated_time_minutes` is `round(hop_count, 0)`.  The outer
`Option` is `none` when a `node_data` lookup raises an uncaught `KeyError`. -/
def get_all_routes_from_location (g : Graph) (nd : List (Nat × NodeData))
    (location_id : Nat) : Option ReachOutcome :=
  if location_id ∈ g.vertexIds then
    let reachable := single_source_shortest_path_length g location_id
    let dests := mapOpt (fun p : Nat × Nat =>
        match findVal nd p.1 with
        | some d =>
          some { id := p.1, name := d.name, type := d.type,
                 estimated_time_minutes := pyRound (p.2 : ℚ) 0 }
        | none => none)
      (reachable.filter (fun p => p.1 != location_id))
    match dests, findVal nd location_id with
    | some ds, some sd =>
      some (.success { source_id := location_id, source_name := sd.name,
                       reachable_destinations := ds, count := ds.length })
    | _, _ => none
  else some (.error "Location not found")

/-- A vertex sequence whose consecutive pairs are all arcs of `g`. -/
def isPath (g : Graph) : List Nat → Bool
  | [] => false
  | [_] => true
  | u :: v :: rest => (arcLookup g u v).isSome && isPath g (v :: rest)

/-- Existence of a directed path in `g` (reflexive-transitive closure of the
arc relation). -/
inductive Reachable (g : Graph) : Nat → Nat → Prop
  | refl (v : Nat) : Reachable g v v
  | head (u v w : Nat) : (arcLookup g u v).isSome → Reachable g v w →
      Reachable g u w

/-- The example scenario of the specification: locations A, B, C, all
active. -/
def exNodes : List LocationNode :=
  [{ id := 1, name := "A", node_type := "warehouse", latitude := 0,
     longitude := 0, address := "", is_active := true },
   { id := 2, name := "B", node_type := "hub", latitude := 0,
     longitude := 1, address := "", is_active := true },
   { id := 3, name := "C", node_type := "customer", latitude := 1,
     longitude := 1, address := "", is_active := true }]

/-- The example edges of the specification: A→B (10 km, 10 min, active,
2.0/km), B→C (20 km, 20 min, active, 1.0/km), A→C (5 km, 5 min, closed,
1.0/km). -/
def exEdges : List RouteEdge :=
  [{ id := 1, source_id := 1, destination_id := 2, distance_km := 10,
     travel_time_minutes := 10, status := "active", cost_per_km := 2 },
   { id := 2, source_id := 2, destination_id := 3, distance_km := 20,
     travel_time_minutes := 20, status := "active", cost_per_km := 1 },
   { id := 3, source_id := 1, destination_id := 3, distance_km := 5,
     travel_time_minutes := 5, status := "closed", cost_per_km := 1 }]

/-- The graph built from the example scenario. -/
def exGraph : Graph := build_graph exNodes exEdges

/-- The `node_data` cache of the example scenario. -/
def exND : List (Nat × NodeData) := node_data_of exNodes

/-- A snapshot with a single active node whose edge references two nodes that
are not among the active ones (the foreign keys of a `RouteEdge` may point at
inactive locations). -/
def inactiveEdgeNodes : List LocationNode :=
  [{ id := 1, name := "A", node_type := "hub", latitude := 0, longitude := 0,
     address := "", is_active := true }]

/-- The edge of the `inactiveEdgeNodes` snapshot: 2→3, both endpoints
inactive. -/
def inactiveEdgeEdges : List RouteEdge :=
  [{ id := 7, source_id := 2, destination_id := 3, distance_km := 1,
     travel_time_minutes := 1, status := "active", cost_per_km := 1 }]

/-- The graph built from the inactive-endpoint snapshot. -/
def inactiveEdgeGraph : Graph := build_graph inactiveEdgeNodes inactiveEdgeEdges

/-- The ordered endpoint pair of an edge record. -/
def pairOf (e : RouteEdge) : Nat × Nat := (e.source_id, e.destination_id)

/-- Replace the `optimized_by` label of a successful result. -/
def withMetricLabel (m : String) : CalcResult → CalcResult
  | .success r =>
    .success { r with summary := { r.summary with optimized_by := m } }
  | .error e => .error e

/-- The `optimized_by` label of a result, when it is a success. -/
def optimizedByOf : CalcResult → Option String
  | .success r => some r.summary.optimized_by
  | .error _ => none

/-- The `(id, estimated_time_minutes)` pairs of a reachability result, when it
is a success. -/
def reachSummary : Option ReachOutcome → Option (List (Nat × ℚ))
  | some (.success r) =>
    some (r.reachable_destinations.map (fun d => (d.id, d.estimated_time_minutes)))
  | _ => none

/-- The zero-segment route the engine returns for an equal-endpoint query at
vertex A of the example scenario, under metric `m`. -/
def selfRouteWith (m : String) : Route :=
  { nodes := [{ id := 1, name := "A", type := "warehouse",
                coordinates := { latitude := 0, longitude := 0 } }],
    segments := [],
    summary := { total_distance_km := 0, total_time_minutes := 0,
                 total_cost := 0, stops := -1, optimized_by := m } }

theorem findVal_setVal_self {κ α : Type} [DecidableEq κ]
    (l : List (κ × α)) (k : κ) (v : α) : findVal (setVal l k v) k = some v := by
  induction l with
  | nil => simp [setVal, findVal]
  | cons q rest ih =>
    obtain ⟨qk, qv⟩ := q
    by_cases h : qk = k
    · simp [setVal, h, findVal]
    · simp [setVal, h, findVal, ih]

theorem findVal_setVal_other {κ α : Type} [DecidableEq κ]
    (l : List (κ × α)) (k k' : κ) (v : α) (h : k' ≠ k) :
    findVal (setVal l k v) k' = findVal l k' := by
  induction l with
  | nil => simp [setVal, findVal, Ne.symm h]
  | cons q rest ih =>
    obtain ⟨qk, qv⟩ := q
    by_cases hq : qk = k
    · subst hq
      simp [setVal, findVal, Ne.symm h]
    · simp [setVal, hq, findVal, ih]

theorem mem_setVal {κ α : Type} [DecidableEq κ]
    (l : List (κ × α)) (k : κ) (v : α) (p : κ × α) (h : p ∈ setVal l k v) :
    p ∈ l ∨ p = (k, v) := by
  induction l with
  | nil =>
    simp [setVal] at h
    simp [h]
  | cons q rest ih =>
    obtain ⟨qk, qv⟩ := q
    by_cases hq : qk = k
    · simp only [setVal, if_pos hq] at h
      rcases List.mem_cons.mp h with h' | h'
      · right; simp [h']
      · left; exact List.mem_cons_of_mem _ h'
    · simp only [setVal, if_neg hq] at h
      rcases List.mem_cons.mp h with h' | h'
      · left; simp [h']
      · rcases ih h' with h'' | h''
        · left; exact List.mem_cons_of_mem _ h''
        · right; exact h''

theorem findVal_isSome_of_mem {κ α : Type} [DecidableEq κ]
    (l : List (κ × α)) (k : κ) (v : α) (h : (k, v) ∈ l) :
    (findVal l k).isSome := by
  induction l with
  | nil => simp at h
  | cons q rest ih =>
    obtain ⟨qk, qv⟩ := q
    by_cases hq : qk = k
    · simp [findVal, hq]
    · rcases List.mem_cons.mp h with h' | h'
      · exact absurd (congrArg Prod.fst h').symm hq
      · simp [findVal, hq, ih h']

theorem mem_keys_iff_findVal {κ α : Type} [DecidableEq κ]
    (l : List (κ × α)) (k : κ) :
    k ∈ l.map Prod.fst ↔ (findVal l k).isSome := by
  induction l with
  | nil => simp [findVal]
  | cons q rest ih =>
    obtain ⟨qk, qv⟩ := q
    by_cases hq : qk = k
    · simp [findVal, hq]
    · simp [findVal, hq, ih, Ne.symm hq]

theorem mapOpt_length {α β : Type} (f : α → Option β) :
    ∀ (l : List α) (ys : List β), mapOpt f l = some ys → ys.length = l.length := by
  intro l
  induction l with
  | nil =>
    intro ys h
    simp [mapOpt] at h
    simp [← h]
  | cons x xs ih =>
    intro ys h
    simp only [mapOpt] at h
    cases hx : f x with
    | none => rw [hx] at h; simp at h
    | some y =>
      rw [hx] at h
      cases hxs : mapOpt f xs with
      | none => rw [hxs] at h; simp at h
      | some ys' =>
        rw [hxs] at h
        simp at h
        simp [← h, ih ys' hxs]

theorem mapOpt_map_eq {α β γ : Type} (f : α → Option β) (proj : β → γ)
    (gfun : α → γ) (hfg : ∀ a b, f a = some b → proj b = gfun a) :
    ∀ (l : List α) (ys : List β), mapOpt f l = some ys →
      ys.map proj = l.map gfun := by
  intro l
  induction l with
  | nil =>
    intro ys h
    simp [mapOpt] at h
    simp [← h]
  | cons x xs ih =>
    intro ys h
    simp only [mapOpt] at h
    cases hx : f x with
    | none => rw [hx] at h; simp at h
    | some y =>
      rw [hx] at h
      cases hxs : mapOpt f xs with
      | none => rw [hxs] at h; simp at h
      | some ys' =>
        rw [hxs] at h
        simp at h
        simp [← h, hfg x y hx, ih ys' hxs]

theorem foldl_min_mem {α : Type} (f : α → ℚ) :
    ∀ (l : List α) (b : α),
      l.foldl (fun best y => if f y < f best then y else best) b ∈ b :: l := by
  intro l
  induction l with
  | nil => intro b; simp
  | cons y tl ih =>
    intro b
    simp only [List.foldl_cons]
    by_cases hc : f y < f b
    · rw [if_pos hc]
      exact List.mem_cons_of_mem b (ih y)
    · rw [if_neg hc]
      rcases List.mem_cons.mp (ih b) with h | h
      · rw [h]; exact List.mem_cons_self b _
      · exact List.mem_cons_of_mem b (List.mem_cons_of_mem y h)

theorem argminBy_mem {α : Type} (f : α → ℚ) (l : List α) (x : α)
    (h : argminBy f l = some x) : x ∈ l := by
  cases l with
  | nil => simp [argminBy] at h
  | cons a xs =>
    simp only [argminBy, Option.some_inj] at h
    rcases List.mem_cons.mp (h ▸ foldl_min_mem f xs a) with h' | h'
    · simp [h']
    · simp [h']

theorem zip_map_snd {α β γ : Type} (h : β → γ) :
    ∀ (l1 : List α) (l2 : List β), l1.length = l2.length →
      (l1.zip l2).map (fun p => h p.2) = l2.map h := by
  intro l1
  induction l1 with
  | nil =>
    intro l2 hl
    cases l2 with
    | nil => simp
    | cons b bs => simp at hl
  | cons a as ih =>
    intro l2 hl
    cases l2 with
    | nil => simp at hl
    | cons b bs =>
      simp at hl
      simp [ih bs hl]

theorem arcs_ensureVertex (g : Graph) (v : Nat) :
    (ensureVertex g v).arcs = g.arcs := by
  by_cases h : v ∈ g.vertexIds <;> simp [ensureVertex, h]

theorem arcs_addEdge (g : Graph) (u v : Nat) (a : ArcData) :
    (addEdge g u v a).arcs = setVal g.arcs (u, v) a := by
  simp [addEdge, arcs_ensureVertex]

theorem arcs_addNodeMeta (g : Graph) (v : Nat) (m : NodeMeta) :
    (addNodeMeta g v m).arcs = g.arcs := rfl

theorem arcs_nodesFold (ns : List LocationNode) (g : Graph) :
    ((ns.foldl (fun g n => addNodeMeta g n.id
      { name := n.name, node_type := n.node_type, latitude := n.latitude,
        longitude := n.longitude, address := n.address }) g)).arcs = g.arcs := by
  induction ns generalizing g with
  | nil => rfl
  | cons n rest ih => simp [List.foldl_cons, ih, arcs_addNodeMeta]

theorem mem_arcs_foldl (es : List RouteEdge) :
    ∀ (g : Graph) (pr : Nat × Nat) (a : ArcData),
      (pr, a) ∈ (es.foldl addEdgeRecord g).arcs →
      (pr, a) ∈ g.arcs ∨
        ∃ e, e ∈ es ∧ e.status ≠ "closed" ∧ pr = pairOf e ∧ a = arcDataOf e := by
  induction es with
  | nil => intro g pr a h; exact Or.inl h
  | cons f rest ih =>
    intro g pr a h
    rcases ih (addEdgeRecord g f) pr a h with h' | h'
    · by_cases hc : f.status = "closed"
      · rw [addEdgeRecord, if_pos hc] at h'
        exact Or.inl h'
      · rw [addEdgeRecord, if_neg hc] at h'
        rw [arcs_addEdge] at h'
        rcases mem_setVal _ _ _ _ h' with h'' | h''
        · exact Or.inl h''
        · right
          refine ⟨f, List.mem_cons_self f rest, hc, ?_, ?_⟩
          · exact congrArg Prod.fst h''
          · exact congrArg Prod.snd h''
    · right
      obtain ⟨e, he, hnc, hpr, ha⟩ := h'
      exact ⟨e, List.mem_cons_of_mem f he, hnc, hpr, ha⟩

theorem arcLookup_addEdgeRecord_other (g : Graph) (e : RouteEdge) (u v : Nat)
    (h : pairOf e ≠ (u, v)) :
    arcLookup (addEdgeRecord g e) u v = arcLookup g u v := by
  by_cases hc : e.status = "closed"
  · rw [addEdgeRecord, if_pos hc]
  · rw [addEdgeRecord, if_neg hc]
    unfold arcLookup
    rw [arcs_addEdge]
    exact findVal_setVal_other _ _ _ _ (fun he => h (he ▸ rfl))

theorem arcLookup_foldl_untouched (es : List RouteEdge) :
    ∀ (g : Graph) (u v : Nat), (∀ e ∈ es, pairOf e ≠ (u, v)) →
      arcLookup (es.foldl addEdgeRecord g) u v = arcLookup g u v := by
  induction es with
  | nil => intro g u v _; rfl
  | cons f rest ih =>
    intro g u v h
    rw [List.foldl_cons, ih (addEdgeRecord g f) u v
      (fun e he => h e (List.mem_cons_of_mem f he))]
    exact arcLookup_addEdgeRecord_other g f u v (h f (List.mem_cons_self f rest))

theorem arcLookup_foldl_of_mem (es : List RouteEdge) :
    ∀ (g : Graph) (e : RouteEdge), e ∈ es → e.status ≠ "closed" →
      (es.map pairOf).Nodup →
      arcLookup (es.foldl addEdgeRecord g) e.source_id e.destination_id =
        some (arcDataOf e) := by
  induction es with
  | nil => intro g e he _ _; simp at he
  | cons f rest ih =>
    intro g e he hnc hnd
    rw [List.map_cons, List.nodup_cons] at hnd
    obtain ⟨hfr, hnd'⟩ := hnd
    rcases List.mem_cons.mp he with h' | h'
    · subst h'
      rw [List.foldl_cons]
      have huntouched : ∀ e' ∈ rest, pairOf e' ≠ (e.source_id, e.destination_id) := by
        intro e' he' heq
        rw [show (e.source_id, e.destination_id) = pairOf e from rfl] at heq
        exact hfr (heq ▸ List.mem_map_of_mem pairOf he')
      rw [arcLookup_foldl_untouched rest (addEdgeRecord g e) _ _ huntouched]
      rw [addEdgeRecord, if_neg hnc]
      unfold arcLookup
      rw [arcs_addEdge]
      exact findVal_setVal_self _ _ _
    · rw [List.foldl_cons]
      exact ih (addEdgeRecord g f) e h' hnc hnd'

theorem vertexIds_addNodeMeta_mono (g : Graph) (x : Nat) (m : NodeMeta)
    (v : Nat) (h : v ∈ g.vertexIds) : v ∈ (addNodeMeta g x m).vertexIds := by
  unfold Graph.vertexIds at h ⊢
  simp only [addNodeMeta]
  rw [show (fun p : Nat × Option NodeMeta => p.1) = Prod.fst from rfl] at h ⊢
  rw [mem_keys_iff_findVal] at h ⊢
  by_cases hv : v = x
  · subst hv
    rw [findVal_setVal_self]
    rfl
  · rw [findVal_setVal_other _ _ _ _ hv]
    exact h

theorem vertexIds_addNodeMeta_self (g : Graph) (x : Nat) (m : NodeMeta) :
    x ∈ (addNodeMeta g x m).vertexIds := by
  unfold Graph.vertexIds
  simp only [addNodeMeta]
  rw [show (fun p : Nat × Option NodeMeta => p.1) = Prod.fst from rfl]
  rw [mem_keys_iff_findVal, findVal_setVal_self]
  rfl

theorem vertexIds_ensureVertex_mono (g : Graph) (x : Nat) (v : Nat)
    (h : v ∈ g.vertexIds) : v ∈ (ensureVertex g x).vertexIds := by
  unfold ensureVertex
  by_cases hx : x ∈ g.vertexIds
  · rw [if_pos hx]; exact h
  · rw [if_neg hx]
    unfold Graph.vertexIds at h ⊢
    simp only [List.map_append]
    exact List.mem_append_left _ h

theorem vertexIds_addEdge_mono (g : Graph) (u w : Nat) (a : ArcData) (v : Nat)
    (h : v ∈ g.vertexIds) : v ∈ (addEdge g u w a).vertexIds := by
  unfold addEdge
  have h1 := vertexIds_ensureVertex_mono g u v h
  have h2 := vertexIds_ensureVertex_mono (ensureVertex g u) w v h1
  exact h2

theorem vertexIds_addEdgeRecord_mono (g : Graph) (e : RouteEdge) (v : Nat)
    (h : v ∈ g.vertexIds) : v ∈ (addEdgeRecord g e).vertexIds := by
  unfold addEdgeRecord
  by_cases hc : e.status = "closed"
  · rw [if_pos hc]; exact h
  · rw [if_neg hc]; exact vertexIds_addEdge_mono _ _ _ _ _ h

theorem vertexIds_edgesFold_mono (es : List RouteEdge) :
    ∀ (g : Graph) (v : Nat), v ∈ g.vertexIds →
      v ∈ (es.foldl addEdgeRecord g).vertexIds := by
  induction es with
  | nil => intro g v h; exact h
  | cons f rest ih =>
    intro g v h
    exact ih (addEdgeRecord g f) v (vertexIds_addEdgeRecord_mono g f v h)

theorem vertexIds_nodesFold_mono (ns : List LocationNode) :
    ∀ (g : Graph) (v : Nat), v ∈ g.vertexIds →
      v ∈ ((ns.foldl (fun g n => addNodeMeta g n.id
        { name := n.name, node_type := n.node_type, latitude := n.latitude,
          longitude := n.longitude, address := n.address }) g)).vertexIds := by
  induction ns with
  | nil => intro g v h; exact h
  | cons m rest ih =>
    intro g v h
    rw [List.foldl_cons]
    exact ih _ v (vertexIds_addNodeMeta_mono g m.id _ v h)

theorem vertexIds_nodesFold_mem (ns : List LocationNode) :
    ∀ (g : Graph) (n : LocationNode), n ∈ ns →
      n.id ∈ ((ns.foldl (fun g n => addNodeMeta g n.id
        { name := n.name, node_type := n.node_type, latitude := n.latitude,
          longitude := n.longitude, address := n.address }) g)).vertexIds := by
  induction ns with
  | nil => intro g n h; simp at h
  | cons m rest ih =>
    intro g n h
    rw [List.foldl_cons]
    rcases List.mem_cons.mp h with h' | h'
    · subst h'
      exact vertexIds_nodesFold_mono rest _ n.id (vertexIds_addNodeMeta_self g n.id _)
    · exact ih _ n h'

theorem mem_vertexIds_build (ns : List LocationNode) (es : List RouteEdge)
    (n : LocationNode) (hn : n ∈ ns) (ha : n.is_active = true) :
    n.id ∈ (build_graph ns es).vertexIds := by
  unfold build_graph
  apply vertexIds_edgesFold_mono
  exact vertexIds_nodesFold_mem _ _ n (List.mem_filter.mpr ⟨hn, by simp [ha]⟩)

theorem mem_successors (g : Graph) (u v : Nat) (h : v ∈ g.successors u) :
    (arcLookup g u v).isSome := by
  unfold Graph.successors at h
  rw [List.mem_filterMap] at h
  obtain ⟨p, hp, hpv⟩ := h
  by_cases hu : p.1.1 = u
  · rw [if_pos hu] at hpv
    have hkey : p.1 = (u, v) := by
      rw [Option.some_inj] at hpv
      exact Prod.ext hu hpv
    unfold arcLookup
    exact findVal_isSome_of_mem g.arcs (u, v) p.2 (by rw [← hkey]; exact hp)
  · rw [if_neg hu] at hpv
    simp at hpv

theorem mem_foldr_append {α β : Type} (F : α → List β) :
    ∀ (l : List α) (p : β),
      p ∈ l.foldr (fun v acc => F v ++ acc) [] → ∃ v ∈ l, p ∈ F v := by
  intro l
  induction l with
  | nil => intro p h; simp at h
  | cons v tl ih =>
    intro p h
    rw [List.foldr_cons] at h
    rcases List.mem_append.mp h with h' | h'
    · exact ⟨v, List.mem_cons_self v tl, h'⟩
    · obtain ⟨v', hv', hp⟩ := ih p h'
      exact ⟨v', List.mem_cons_of_mem v hv', hp⟩

theorem mem_simplePathsAux (g : Graph) :
    ∀ (fuel : Nat) (cur target : Nat) (visited : List Nat) (p : List Nat),
      p ∈ simplePathsAux g fuel cur target visited →
      isPath g p = true ∧ p.head? = some cur ∧ p.getLast? = some target := by
  intro fuel
  induction fuel with
  | zero =>
    intro cur target visited p h
    simp only [simplePathsAux] at h
    by_cases hc : cur = target
    · rw [if_pos hc] at h
      simp at h
      subst h
      exact ⟨rfl, rfl, by simp [hc]⟩
    · rw [if_neg hc] at h
      simp at h
  | succ fuel ih =>
    intro cur target visited p h
    simp only [simplePathsAux] at h
    by_cases hc : cur = target
    · rw [if_pos hc] at h
      simp at h
      subst h
      exact ⟨rfl, rfl, by simp [hc]⟩
    · rw [if_neg hc] at h
      obtain ⟨v, hv, hp⟩ := mem_foldr_append _ _ p h
      by_cases hvis : v ∈ visited
      · rw [if_pos hvis] at hp
        simp at hp
      · rw [if_neg hvis] at hp
        rw [List.mem_map] at hp
        obtain ⟨p', hp', hpeq⟩ := hp
        obtain ⟨hpath, hhead, hlast⟩ := ih v target (v :: visited) p' hp'
        subst hpeq
        cases p' with
        | nil => simp at hhead
        | cons x rest =>
          have hx : x = v := by simpa using hhead
          subst hx
          refine ⟨?_, rfl, ?_⟩
          · rw [isPath]
            rw [Bool.and_eq_true]
            exact ⟨mem_successors g cur x hv, hpath⟩
          · rw [List.getLast?_cons_cons]
            exact hlast

theorem isPath_reachable (g : Graph) :
    ∀ (p : List Nat) (s t : Nat), isPath g p = true → p.head? = some s →
      p.getLast? = some t → Reachable g s t := by
  intro p
  induction p with
  | nil => intro s t _ hh _; simp at hh
  | cons x tl ih =>
    intro s t hpath hhead hlast
    have hx : x = s := by simpa using hhead
    subst hx
    cases tl with
    | nil =>
      have ht : x = t := by simpa using hlast
      subst ht
      exact Reachable.refl x
    | cons y rest =>
      rw [isPath, Bool.and_eq_true] at hpath
      rw [List.getLast?_cons_cons] at hlast
      exact Reachable.head x y t hpath.1 (ih y t hpath.2 rfl hlast)

theorem simplePathsAux_self (g : Graph) (fuel : Nat) (x : Nat)
    (visited : List Nat) : simplePathsAux g fuel x x visited = [[x]] := by
  cases fuel <;> simp [simplePathsAux]

theorem dijkstra_path_self (g : Graph) (x : Nat) (w : ArcData → ℚ) :
    dijkstra_path g x x w = some [x] := by
  unfold dijkstra_path
  rw [simplePathsAux_self]
  rfl

theorem dijkstra_path_sound (g : Graph) (s t : Nat) (w : ArcData → ℚ)
    (p : List Nat) (h : dijkstra_path g s t w = some p) :
    isPath g p = true ∧ p.head? = some s ∧ p.getLast? = some t := by
  unfold dijkstra_path at h
  exact mem_simplePathsAux g _ s t [s] p (argminBy_mem _ _ p h)

theorem dijkstra_path_reachable (g : Graph) (s t : Nat) (w : ArcData → ℚ)
    (p : List Nat) (h : dijkstra_path g s t w = some p) : Reachable g s t := by
  obtain ⟨hpath, hhead, hlast⟩ := dijkstra_path_sound g s t w p h
  exact isPath_reachable g p s t hpath hhead hlast

theorem pyRound_zero (n : ℕ) : pyRound 0 n = 0 := by
  unfold pyRound roundHalfEven
  norm_num

theorem findVal_node_data (ns : List LocationNode) (n : LocationNode)
    (hn : n ∈ ns) (ha : n.is_active = true) :
    ∃ d, findVal (node_data_of ns) n.id = some d := by
  induction ns with
  | nil => simp at hn
  | cons m rest ih =>
    by_cases hm : m.is_active = true
    · have hcons : node_data_of (m :: rest) =
          (m.id, { name := m.name, type := m.node_type,
                   coords := (m.latitude, m.longitude) }) :: node_data_of rest := by
        unfold node_data_of
        rw [List.filter_cons, if_pos (by simp [hm])]
        rfl
      rw [hcons]
      by_cases hid : m.id = n.id
      · exact ⟨_, by rw [findVal, if_pos hid]⟩
      · rw [findVal, if_neg hid]
        rcases List.mem_cons.mp hn with h' | h'
        · exact absurd (congrArg LocationNode.id h').symm hid
        · exact ih h'
    · have hcons : node_data_of (m :: rest) = node_data_of rest := by
        unfold node_data_of
        rw [List.filter_cons, if_neg (by simp [hm])]
      rw [hcons]
      rcases List.mem_cons.mp hn with h' | h'
      · rw [h'] at ha; exact absurd ha hm
      · exact ih h'

theorem weightAttr_fallback (m : String) (h1 : m ≠ "time") (h2 : m ≠ "distance")
    (h3 : m ≠ "cost") : weightAttr m = weightAttr "time" := by
  funext a
  rw [weightAttr, weightAttr, if_neg h1, if_neg h2, if_neg h3, if_pos rfl]

theorem mkRouteNode_id (nd : List (Nat × NodeData)) (v : Nat) (b : RouteNode)
    (h : mkRouteNode nd v = some b) : b.id = v := by
  unfold mkRouteNode at h
  cases hf : findVal nd v with
  | none => rw [hf] at h; simp at h
  | some d =>
    rw [hf] at h
    simp at h
    rw [← h]

theorem mkSegment_fields (nd : List (Nat × NodeData)) (pa : (Nat × Nat) × ArcData)
    (sgm : Segment) (h : mkSegment nd pa = some sgm) :
    sgm.distance_km = pyRound pa.2.distance 2 ∧
    sgm.time_minutes = pyRound pa.2.weight 0 ∧
    sgm.cost = pyRound pa.2.cost 2 := by
  unfold mkSegment at h
  cases hf : mkEndpoint nd pa.1.1 with
  | none => rw [hf] at h; simp at h
  | some f =>
    rw [hf] at h
    cases ht : mkEndpoint nd pa.1.2 with
    | none => rw [ht] at h; simp at h
    | some t =>
      rw [ht] at h
      simp at h
      rw [← h]
      exact ⟨rfl, rfl, rfl⟩

theorem calculate_success_inversion (g : Graph) (nd : List (Nat × NodeData))
    (s t : Nat) (m : String) (r : Route)
    (h : calculate_shortest_path g nd s t m = .success r) :
    ∃ path as segs rns,
      dijkstra_path g s t (weightAttr m) = some path ∧
      pathArcs g path = some as ∧
      mapOpt (mkSegment nd) ((pathPairs path).zip as) = some segs ∧
      mapOpt (mkRouteNode nd) path = some rns ∧
      r = { nodes := rns, segments := segs,
            summary :=
              { total_distance_km :=
                  pyRound ((as.map (fun a => a.distance)).sum) 2,
                total_time_minutes :=
                  pyRound ((as.map (fun a => a.weight)).sum) 0,
                total_cost := pyRound ((as.map (fun a => a.cost)).sum) 2,
                stops := (path.length : ℤ) - 2,
                optimized_by := m } } := by
  unfold calculate_shortest_path at h
  split at h
  case isFalse => exact absurd h (by simp)
  split at h
  case isFalse => exact absurd h (by simp)
  split at h
  case h_2 => exact absurd h (by simp)
  case h_1 path hd =>
    split at h
    case h_2 => exact absurd h (by simp)
    case h_1 as hpa =>
      split at h
      case h_2 => exact absurd h (by simp)
      case h_1 segs rns hsegs hrns =>
        simp only [CalcResult.success.injEq] at h
        exact ⟨path, as, segs, rns, hd, hpa, hsegs, hrns, h.symm⟩

theorem findVal_mem {κ α : Type} [DecidableEq κ] :
    ∀ (l : List (κ × α)) (k : κ) (a : α), findVal l k = some a → (k, a) ∈ l := by
  intro l
  induction l with
  | nil => intro k a h; simp [findVal] at h
  | cons q rest ih =>
    obtain ⟨qk, qv⟩ := q
    intro k a h
    by_cases hq : qk = k
    · rw [findVal, if_pos hq] at h
      rw [Option.some_inj] at h
      subst hq
      subst h
      exact List.mem_cons_self _ _
    · rw [findVal, if_neg hq] at h
      exact List.mem_cons_of_mem _ (ih k a h)

theorem arcLookup_isSome_mem_successors (g : Graph) (u v : Nat)
    (h : (arcLookup g u v).isSome) : v ∈ g.successors u := by
  unfold arcLookup at h
  cases hf : findVal g.arcs (u, v) with
  | none => rw [hf] at h; simp at h
  | some a =>
    unfold Graph.successors
    rw [List.mem_filterMap]
    exact ⟨((u, v), a), findVal_mem g.arcs (u, v) a hf, by simp⟩

theorem reachable_inversion (g : Graph) (u t : Nat) (h : Reachable g u t) :
    u = t ∨ ∃ v, v ∈ g.successors u ∧ Reachable g v t := by
  cases h with
  | refl => exact Or.inl rfl
  | head u' v' w' harc hr =>
    exact Or.inr ⟨v', arcLookup_isSome_mem_successors _ _ _ harc, hr⟩

theorem not_reachable_3_1 : ¬ Reachable exGraph 3 1 := by
  intro h
  rcases reachable_inversion exGraph 3 1 h with he | ⟨v, hv, _⟩
  · exact absurd he (by decide)
  · rw [(by with_unfolding_all decide : exGraph.successors 3 = [])] at hv
    simp at hv

/-- C10: for every successful `calculate_shortest_path` result, the summary
field `optimized_by` is the metric argument echoed verbatim — also when the
metric string is unrecognized and the search was actually steered by the time
weight. -/
theorem optimized_by_echoes_request (g : Graph) (nd : List (Nat × NodeData))
    (s t : Nat) (m : String) (r : Route)
    (h : calculate_shortest_path g nd s t m = .success r) :
    r.summary.optimized_by = m := by
  obtain ⟨path, as, segs, rns, _, _, _, _, hr⟩ :=
    calculate_success_inversion g nd s t m r h
  rw [hr]

/-- Witness for C10: the unrecognized metric string `foo` is echoed back on a
successful query of the example graph. -/
theorem optimized_by_echoes_request_witness :
    (selfRouteWith "foo").summary.optimized_by = "foo" :=
  optimized_by_echoes_request exGraph exND 1 1 "foo" (selfRouteWith "foo")
    (by with_unfolding_all decide)

/-- C9: in every successful `calculate_shortest_path` result, the summary
field `stops` equals the number of vertices of the returned path minus 2
(`len(path) - 2` in the source, source and destination excluded). -/
theorem stops_is_path_length_minus_two (g : Graph) (nd : List (Nat × NodeData))
    (s t : Nat) (m : String) (r : Route)
    (h : calculate_shortest_path g nd s t m = .success r) :
    r.summary.stops = (r.nodes.length : ℤ) - 2 := by
  obtain ⟨path, as, segs, rns, _, _, _, hrns, hr⟩ :=
    calculate_success_inversion g nd s t m r h
  have hlen : rns.length = path.length := mapOpt_length _ path rns hrns
  rw [hr]
  simp [hlen]

/-- Witness for C9 on a successful query of the example graph. -/
theorem stops_is_path_length_minus_two_witness :
    (selfRouteWith "distance").summary.stops =
      ((selfRouteWith "distance").nodes.length : ℤ) - 2 :=
  stops_is_path_length_minus_two exGraph exND 1 1 "distance"
    (selfRouteWith "distance") (by with_unfolding_all decide)

/-- C6: in every successful `calculate_shortest_path` result, the summary
totals are the exact, unrounded sums of the per-segment values taken from the
arcs traversed by the returned path, rounded exactly once at output, and each
displayed segment value is the once-rounded value of the same arc. -/
theorem summary_totals_are_rounded_exact_sums (g : Graph)
    (nd : List (Nat × NodeData)) (s t : Nat) (m : String) (r : Route)
    (h : calculate_shortest_path g nd s t m = .success r) :
    ∃ as, pathArcs g (r.nodes.map (fun n => n.id)) = some as ∧
      r.summary.total_distance_km =
        pyRound ((as.map (fun a => a.distance)).sum) 2 ∧
      r.summary.total_time_minutes =
        pyRound ((as.map (fun a => a.weight)).sum) 0 ∧
      r.summary.total_cost = pyRound ((as.map (fun a => a.cost)).sum) 2 ∧
      r.segments.map (fun sg => sg.distance_km) =
        as.map (fun a => pyRound a.distance 2) ∧
      r.segments.map (fun sg => sg.time_minutes) =
        as.map (fun a => pyRound a.weight 0) ∧
      r.segments.map (fun sg => sg.cost) = as.map (fun a => pyRound a.cost 2) := by
  obtain ⟨path, as, segs, rns, hd, hpa, hsegs, hrns, hr⟩ :=
    calculate_success_inversion g nd s t m r h
  have hids : rns.map (fun n => n.id) = path := by
    have hmm := mapOpt_map_eq (mkRouteNode nd) (fun n => n.id) (fun v => v)
      (fun a b hb => mkRouteNode_id nd a b hb) path rns hrns
    simpa using hmm
  have hpa' : mapOpt (fun pr => arcLookup g pr.1 pr.2) (pathPairs path) =
      some as := hpa
  have hlen : (pathPairs path).length = as.length :=
    (mapOpt_length _ (pathPairs path) as hpa').symm
  subst hr
  refine ⟨as, ?_, rfl, rfl, rfl, ?_, ?_, ?_⟩
  · show pathArcs g (rns.map (fun n => n.id)) = some as
    rw [hids]
    exact hpa
  · show segs.map (fun sg => sg.distance_km) =
      as.map (fun a => pyRound a.distance 2)
    have h1 := mapOpt_map_eq (mkSegment nd) (fun sg => sg.distance_km)
      (fun pa => pyRound pa.2.distance 2)
      (fun a b hb => (mkSegment_fields nd a b hb).1)
      ((pathPairs path).zip as) segs hsegs
    have h2 := zip_map_snd (fun a => pyRound a.distance 2) (pathPairs path)
      as hlen
    exact h1.trans h2
  · show segs.map (fun sg => sg.time_minutes) =
      as.map (fun a => pyRound a.weight 0)
    have h1 := mapOpt_map_eq (mkSegment nd) (fun sg => sg.time_minutes)
      (fun pa => pyRound pa.2.weight 0)
      (fun a b hb => (mkSegment_fields nd a b hb).2.1)
      ((pathPairs path).zip as) segs hsegs
    have h2 := zip_map_snd (fun a => pyRound a.weight 0) (pathPairs path)
      as hlen
    exact h1.trans h2
  · show segs.map (fun sg => sg.cost) = as.map (fun a => pyRound a.cost 2)
    have h1 := mapOpt_map_eq (mkSegment nd) (fun sg => sg.cost)
      (fun pa => pyRound pa.2.cost 2)
      (fun a b hb => (mkSegment_fields nd a b hb).2.2)
      ((pathPairs path).zip as) segs hsegs
    have h2 := zip_map_snd (fun a => pyRound a.cost 2) (pathPairs path)
      as hlen
    exact h1.trans h2

/-- Witness for C6 on a successful query of the example graph. -/
theorem summary_totals_are_rounded_exact_sums_witness :
    ∃ as, pathArcs exGraph ((selfRouteWith "time").nodes.map (fun n => n.id)) =
        some as ∧
      (selfRouteWith "time").summary.total_distance_km =
        pyRound ((as.map (fun a => a.distance)).sum) 2 ∧
      (selfRouteWith "time").summary.total_time_minutes =
        pyRound ((as.map (fun a => a.weight)).sum) 0 ∧
      (selfRouteWith "time").summary.total_cost =
        pyRound ((as.map (fun a => a.cost)).sum) 2 ∧
      (selfRouteWith "time").segments.map (fun sg => sg.distance_km) =
        as.map (fun a => pyRound a.distance 2) ∧
      (selfRouteWith "time").segments.map (fun sg => sg.time_minutes) =
        as.map (fun a => pyRound a.weight 0) ∧
      (selfRouteWith "time").segments.map (fun sg => sg.cost) =
        as.map (fun a => pyRound a.cost 2) :=
  summary_totals_are_rounded_exact_sums exGraph exND 1 1 "time"
    (selfRouteWith "time") (by with_unfolding_all decide)

/-- C4: `calculate_shortest_path` returns the `NotFound`-style error naming
the missing endpoint exactly when the source (checked first) or the
destination is not a vertex of the graph, without running the search; and
when both endpoints are vertices but no directed path connects them, it
returns the `NoPath`-style error — never an empty success. -/
theorem endpoint_validation_and_no_path_errors (g : Graph)
    (nd : List (Nat × NodeData)) (s t : Nat) (m : String) :
    (s ∉ g.vertexIds →
      calculate_shortest_path g nd s t m = .error (srcNotFoundMsg s)) ∧
    (s ∈ g.vertexIds → t ∉ g.vertexIds →
      calculate_shortest_path g nd s t m = .error (dstNotFoundMsg t)) ∧
    (s ∈ g.vertexIds → t ∈ g.vertexIds → ¬ Reachable g s t →
      calculate_shortest_path g nd s t m = .error noPathMsg) := by
  refine ⟨?_, ?_, ?_⟩
  · intro hs
    unfold calculate_shortest_path
    rw [if_neg hs]
  · intro hs ht
    unfold calculate_shortest_path
    rw [if_pos hs, if_neg ht]
  · intro hs ht hnr
    unfold calculate_shortest_path
    rw [if_pos hs, if_pos ht]
    cases hd : dijkstra_path g s t (weightAttr m) with
    | none => rfl
    | some p => exact absurd (dijkstra_path_reachable g s t _ p hd) hnr

/-- Witness for C4: all three error branches on the example graph (vertex 99
does not exist; C cannot reach A). -/
theorem endpoint_validation_and_no_path_errors_witness :
    calculate_shortest_path exGraph exND 99 1 "time" =
      .error (srcNotFoundMsg 99) ∧
    calculate_shortest_path exGraph exND 1 99 "time" =
      .error (dstNotFoundMsg 99) ∧
    calculate_shortest_path exGraph exND 3 1 "time" = .error noPathMsg :=
  ⟨(endpoint_validation_and_no_path_errors exGraph exND 99 1 "time").1
      (by with_unfolding_all decide),
   (endpoint_validation_and_no_path_errors exGraph exND 1 99 "time").2.1
      (by with_unfolding_all decide) (by with_unfolding_all decide),
   (endpoint_validation_and_no_path_errors exGraph exND 3 1 "time").2.2
      (by with_unfolding_all decide) (by with_unfolding_all decide)
      not_reachable_3_1⟩

/-- C2: every arc of a built graph originates from a non-closed input edge,
in that edge's own direction and with that edge's computed data — hence a
`closed` edge contributes no arc at all, and no reverse arc is inferred from
any edge. -/
theorem closed_edges_contribute_no_arc (ns : List LocationNode)
    (es : List RouteEdge) (pr : Nat × Nat) (a : ArcData)
    (h : (pr, a) ∈ (build_graph ns es).arcs) :
    ∃ e, e ∈ es ∧ e.status ≠ "closed" ∧ pr = pairOf e ∧ a = arcDataOf e := by
  simp only [build_graph] at h
  rcases mem_arcs_foldl es _ pr a h with h' | h'
  · rw [arcs_nodesFold] at h'
    simp at h'
  · exact h'

/-- Witness for C2 at the A→B arc of the example graph. -/
theorem closed_edges_contribute_no_arc_witness :
    ∃ e, e ∈ exEdges ∧ e.status ≠ "closed" ∧ ((1 : Nat), (2 : Nat)) = pairOf e ∧
      ({ weight := 10, distance := 10, cost := 20, status := "active",
         edge_id := 1 } : ArcData) = arcDataOf e :=
  closed_edges_contribute_no_arc exNodes exEdges (1, 2)
    { weight := 10, distance := 10, cost := 20, status := "active",
      edge_id := 1 } (by with_unfolding_all decide)

/-- C3: for every non-closed input edge (under the database invariant that
ordered endpoint pairs are unique), the arc `build_graph` adds at its endpoint
pair carries exactly the three weights `time = travel_time_minutes * 1.5` for
a `slow` edge and `* 1.0` for an `active` edge, `distance = distance_km`, and
`cost = cost_per_km * distance_km`. -/
theorem arc_weight_formulas (ns : List LocationNode) (es : List RouteEdge)
    (e : RouteEdge) (he : e ∈ es) (hnc : e.status ≠ "closed")
    (hnd : (es.map pairOf).Nodup) :
    ∃ a, arcLookup (build_graph ns es) e.source_id e.destination_id = some a ∧
      (e.status = "slow" → a.weight = (e.travel_time_minutes : ℚ) * 1.5) ∧
      (e.status = "active" → a.weight = (e.travel_time_minutes : ℚ) * 1.0) ∧
      a.distance = e.distance_km ∧
      a.cost = e.cost_per_km * e.distance_km := by
  refine ⟨arcDataOf e, ?_, ?_, ?_, rfl, rfl⟩
  · simp only [build_graph]
    exact arcLookup_foldl_of_mem es _ e he hnc hnd
  · intro hs
    simp [arcDataOf, hs]
  · intro hs
    have hns : e.status ≠ "slow" := by rw [hs]; decide
    simp only [arcDataOf, if_neg hns]
    norm_num
/-- Witness for C3 at the slow-free example edge A→B. -/
theorem arc_weight_formulas_witness :
    ∃ a, arcLookup (build_graph exNodes exEdges) 1 2 = some a ∧
      ("active" = "slow" → a.weight = ((10 : ℤ) : ℚ) * 1.5) ∧
      ("active" = "active" → a.weight = ((10 : ℤ) : ℚ) * 1.0) ∧
      a.distance = 10 ∧
      a.cost = 2 * 10 :=
  arc_weight_formulas exNodes exEdges
    { id := 1, source_id := 1, destination_id := 2, distance_km := 10,
      travel_time_minutes := 10, status := "active", cost_per_km := 2 }
    (by decide) (by decide) (by decide)

/-- C7: `build_graph` is deterministic in its input snapshot — two fresh runs
(with any `force_rebuild` flags) over the same node and edge records produce
graphs with identical vertex lists (ids and metadata) and identical arc lists
(endpoints and all three weights). -/
theorem build_graph_deterministic (ns : List LocationNode)
    (es : List RouteEdge) (b1 b2 : Bool) (g1 g2 : Graph)
    (h1 : g1 = build_graph_cached none b1 ns es)
    (h2 : g2 = build_graph_cached none b2 ns es) :
    g1.vertices = g2.vertices ∧ g1.arcs = g2.arcs := by
  subst h1
  subst h2
  cases b1 <;> cases b2 <;> exact ⟨rfl, rfl⟩

/-- Witness for C7: a forced and an unforced fresh build of the example
snapshot coincide. -/
theorem build_graph_deterministic_witness :
    (build_graph_cached none true exNodes exEdges).vertices =
      (build_graph_cached none false exNodes exEdges).vertices ∧
    (build_graph_cached none true exNodes exEdges).arcs =
      (build_graph_cached none false exNodes exEdges).arcs :=
  build_graph_deterministic exNodes exEdges true false _ _ rfl rfl

/-- C5 (counterexample): vertex 2 IS a vertex of a built graph (an edge
endpoint auto-inserted by `add_edge` even though no active node 2 exists),
yet the equal-endpoint query on it does not succeed: the `node_data` lookup
raises a `KeyError` that the generic handler turns into an error result. -/
theorem self_route_fails_on_metadata_free_vertex :
    2 ∈ inactiveEdgeGraph.vertexIds ∧
    calculate_shortest_path inactiveEdgeGraph (node_data_of inactiveEdgeNodes)
        2 2 "time" = .error calcFailedMsg := by
  with_unfolding_all decide

/-- C5 (amended): for every built graph and every vertex `X` of it that stems
from an active node record (so it has `node_data` metadata), an equal-endpoint
query succeeds with the node sequence `[X]`, an empty segment list, and zero
summary totals, for every metric. -/
theorem self_route_zero_totals_for_active_vertex (ns : List LocationNode)
    (es : List RouteEdge) (X : Nat) (m : String) (n : LocationNode)
    (hn : n ∈ ns) (ha : n.is_active = true) (hid : n.id = X) :
    ∃ d, findVal (node_data_of ns) X = some d ∧
      calculate_shortest_path (build_graph ns es) (node_data_of ns) X X m =
        .success
          { nodes := [{ id := X, name := d.name, type := d.type,
                        coordinates := { latitude := d.coords.1,
                                         longitude := d.coords.2 } }],
            segments := [],
            summary := { total_distance_km := 0, total_time_minutes := 0,
                         total_cost := 0, stops := -1, optimized_by := m } } := by
  subst hid
  obtain ⟨d, hd⟩ := findVal_node_data ns n hn ha
  refine ⟨d, hd, ?_⟩
  have hmem : n.id ∈ (build_graph ns es).vertexIds :=
    mem_vertexIds_build ns es n hn ha
  unfold calculate_shortest_path
  rw [if_pos hmem, if_pos hmem, dijkstra_path_self]
  simp only [pathArcs, pathPairs, List.tail_cons, List.zip_nil_right, mapOpt,
    mkRouteNode, hd, List.map_nil, List.sum_nil, pyRound_zero,
    List.length_cons, List.length_nil]
  norm_num

/-- Witness for the amended C5 at vertex A of the example snapshot, metric
`cost`. -/
theorem self_route_zero_totals_for_active_vertex_witness :
    ∃ d, findVal (node_data_of exNodes) 1 = some d ∧
      calculate_shortest_path (build_graph exNodes exEdges)
          (node_data_of exNodes) 1 1 "cost" =
        .success
          { nodes := [{ id := 1, name := d.name, type := d.type,
                        coordinates := { latitude := d.coords.1,
                                         longitude := d.coords.2 } }],
            segments := [],
            summary := { total_distance_km := 0, total_time_minutes := 0,
                         total_cost := 0, stops := -1,
                         optimized_by := "cost" } } :=
  self_route_zero_totals_for_active_vertex exNodes exEdges 1 "cost"
    { id := 1, name := "A", node_type := "warehouse", latitude := 0,
      longitude := 0, address := "", is_active := true }
    (by decide) (by decide) (by decide)

/-- C8 (counterexample): with the unrecognized metric `foo` the query
succeeds and is steered by the time weight, but its result is NOT equal to
the result for metric `time`: the echoed `optimized_by` labels differ. -/
theorem unrecognized_metric_result_differs_from_time :
    optimizedByOf (calculate_shortest_path exGraph exND 1 2 "foo") =
      some "foo" ∧
    optimizedByOf (calculate_shortest_path exGraph exND 1 2 "time") =
      some "time" ∧
    calculate_shortest_path exGraph exND 1 2 "foo" ≠
      calculate_shortest_path exGraph exND 1 2 "time" := by
  with_unfolding_all decide

/-- C8 (amended): for every metric string outside `time`/`distance`/`cost`
the search falls back to the time weight and proceeds normally — the result
equals the result for metric `time` up to the echoed `optimized_by` label
(no validation error is returned for the metric). -/
theorem unrecognized_metric_falls_back_to_time_weight (g : Graph)
    (nd : List (Nat × NodeData)) (s t : Nat) (m : String)
    (h1 : m ≠ "time") (h2 : m ≠ "distance") (h3 : m ≠ "cost") :
    calculate_shortest_path g nd s t m =
      withMetricLabel m (calculate_shortest_path g nd s t "time") := by
  unfold calculate_shortest_path
  rw [weightAttr_fallback m h1 h2 h3]
  by_cases hs : s ∈ g.vertexIds
  case neg => rw [if_neg hs, if_neg hs]; rfl
  rw [if_pos hs, if_pos hs]
  by_cases ht : t ∈ g.vertexIds
  case neg => rw [if_neg ht, if_neg ht]; rfl
  rw [if_pos ht, if_pos ht]
  cases hd : dijkstra_path g s t (weightAttr "time") with
  | none => rfl
  | some path =>
    try dsimp only
    cases hpa : pathArcs g path with
    | none => rfl
    | some as =>
      try dsimp only
      cases hsegs : mapOpt (mkSegment nd) ((pathPairs path).zip as) with
      | none => rfl
      | some segs =>
        try dsimp only
        cases hrns : mapOpt (mkRouteNode nd) path with
        | none => rfl
        | some rns => rfl

/-- Witness for the amended C8 at metric `foo` on the example graph. -/
theorem unrecognized_metric_falls_back_witness :
    calculate_shortest_path exGraph exND 1 2 "foo" =
      withMetricLabel "foo" (calculate_shortest_path exGraph exND 1 2 "time") :=
  unrecognized_metric_falls_back_to_time_weight exGraph exND 1 2 "foo"
    (by decide) (by decide) (by decide)

/-- C1: on the very graph of the specification example (arcs A→B with time
weight 10 and B→C with time weight 20), `get_all_routes_from_location(A)`
reports estimated times 1 and 2 — the unweighted BFS hop counts computed by
`nx.single_source_shortest_path_length` — not the minimal total time weights
10 and 30 that the specification requires. -/
theorem reachability_sweep_returns_hop_counts :
    reachSummary (get_all_routes_from_location exGraph exND 1) =
      some [(2, 1), (3, 2)] ∧
    reachSummary (get_all_routes_from_location exGraph exND 1) ≠
      some [(2, 10), (3, 30)] := by
  with_unfolding_all decide
